import Mathlib

/-!
Shallow embedding of the transport-network-analysis core pipeline
(src/graph_analysis/graph_builder.py and src/graph_analysis/critical_nodes.py).

Conventions of the embedding:
* node identifiers are natural numbers; the undirected simple graph of
  networkx (`nx.Graph`) is modelled as an insertion-ordered node list plus an
  edge list keyed by the normalised (sorted) endpoint pair — exactly the shape
  of the networkx adjacency structure, in which parallel edges are
  unrepresentable but self-loops are representable;
* Python floats are modelled as exact rationals;
* fallible operations (dict/attribute lookups that can raise `KeyError`,
  `G.neighbors` on an absent node) return `Except String`;
* the randomised approximations inside `_calculate_network_metrics_fast`
  (`np.random.choice` source sampling and
  `nx.approximation.average_clustering(..., trials=1000)`) are unseeded in the
  source: every call consumes and advances the interpreter-global RNG state.
  The embedding makes that state explicit: a `Sampler` holds the draw values
  one call realises, and `clusteringTrialHit`/`averageClusteringApprox` embed
  the trial loop of `nx.approximation.average_clustering` with its RNG draws
  as an explicit stream, so that distinct calls (or the parallel workers
  versus the sequential loop) correspond to distinct samplers.
-/

deriving instance DecidableEq for Except

/-- Attributes networkx stores on a node.  Nodes created by
`TransportGraphBuilder.build_graph` carry all three; nodes of ad-hoc graphs
may carry none (`G.nodes[v].get('name', ...)` then falls back to a default). -/
structure NodeAttrs where
  name : Option String := none
  lat : Option Rat := none
  lon : Option Rat := none
deriving Repr, DecidableEq

/-- One adjacency entry of the undirected graph: the normalised endpoint pair
`k` (smaller id first) plus the edge attributes written by `build_graph`. -/
structure EdgeEntry where
  k : Nat × Nat
  trip_id : Nat := 0
  route_id : Nat := 0
  route_type : Int := 0
  trips : Nat := 0
deriving Repr, DecidableEq

/-- The `nx.Graph` model: insertion-ordered node list, per-node attributes,
and the edge list keyed by normalised endpoint pairs. -/
structure Graph where
  nodes : List Nat
  attrs : List (Nat × NodeAttrs)
  edges : List EdgeEntry
deriving Repr, DecidableEq

/-- Normalised (unordered) endpoint pair, as stored in the adjacency. -/
def normPair (a b : Nat) : Nat × Nat :=
  if a ≤ b then (a, b) else (b, a)

/-- `G.has_edge(u, v)` — symmetric adjacency test. -/
def hasEdge (g : Graph) (a b : Nat) : Bool :=
  g.edges.any (fun e => e.k = normPair a b)

/-- First adjacency entry carrying the given normalised key. -/
def lookupEdge (es : List EdgeEntry) (k : Nat × Nat) : Option EdgeEntry :=
  es.find? (fun e => e.k = k)

/-- `self.graph[source][target]['trips'] += 1`: bump the trip counter of the
(first) entry with the given key, leaving everything else unchanged. -/
def bumpTrips : List EdgeEntry → Nat × Nat → List EdgeEntry
  | [], _ => []
  | e :: es, k => if e.k = k then { e with trips := e.trips + 1 } :: es else e :: bumpTrips es k

/-- Neighbour list of a node (a self-loop contributes the node itself once,
as in the networkx adjacency view). -/
def neighborsOf (g : Graph) (v : Nat) : List Nat :=
  g.edges.filterMap (fun e =>
    if e.k.1 = v then some e.k.2 else if e.k.2 = v then some e.k.1 else none)

/-- `nx.isolates`: a node of degree zero, i.e. with no incident edge
(a self-loop counts as incident). -/
def isolatedIn (g : Graph) (v : Nat) : Bool :=
  g.edges.all (fun e => e.k.1 ≠ v ∧ e.k.2 ≠ v)

/-! ## GTFS input tables (`self.gtfs_data`) -/

structure StopRow where
  stop_id : Nat
  stop_name : String
  stop_lat : Rat
  stop_lon : Rat
deriving Repr, DecidableEq

structure RouteRow where
  route_id : Nat
  route_type : Int
deriving Repr, DecidableEq

structure TripRow where
  trip_id : Nat
  route_id : Nat
deriving Repr, DecidableEq

structure StopTimeRow where
  trip_id : Nat
  stop_id : Nat
  stop_sequence : Nat
deriving Repr, DecidableEq

structure GTFSData where
  stops : List StopRow
  routes : List RouteRow
  trips : List TripRow
  stop_times : List StopTimeRow
deriving Repr, DecidableEq

/-! ## TransportGraphBuilder.build_graph -/

/-- `self.graph.add_node(stop_id, name=..., lat=..., lon=...)`: append the node
if new, otherwise update its attribute dict. -/
def addNode (g : Graph) (s : StopRow) : Graph :=
  let a : NodeAttrs := { name := some s.stop_name, lat := some s.stop_lat, lon := some s.stop_lon }
  if g.nodes.contains s.stop_id then
    { g with attrs := g.attrs.map (fun p => if p.1 = s.stop_id then (p.1, a) else p) }
  else
    { nodes := g.nodes ++ [s.stop_id]
      attrs := g.attrs ++ [(s.stop_id, a)]
      edges := g.edges }

/-- Stable ascending insertion by `stop_sequence` (the `sort_values`). -/
def insertBySeq (x : StopTimeRow) : List StopTimeRow → List StopTimeRow
  | [] => [x]
  | y :: ys => if x.stop_sequence < y.stop_sequence then x :: y :: ys else y :: insertBySeq x ys

/-- `stop_times_df[stop_times_df['trip_id'] == trip_id].sort_values('stop_sequence')`. -/
def sortedStops (d : GTFSData) (tid : Nat) : List StopTimeRow :=
  (d.stop_times.filter (fun r => r.trip_id = tid)).foldl (fun acc x => insertBySeq x acc) []

/-- The ordered stop-id sequence of a trip. -/
def stopIdsOf (d : GTFSData) (tid : Nat) : List Nat :=
  (sortedStops d tid).map (·.stop_id)

/-- Consecutive pairs of a list (`for i in range(len(stop_ids) - 1)`). -/
def pairsOf (l : List Nat) : List (Nat × Nat) :=
  l.zip l.tail

/-- Body of the inner edge loop: skip the pair if either stop id is absent
from the node set; otherwise increment the existing connection or create it
with `trips = 1`. -/
def addConnection (tid rid : Nat) (rtype : Int) (g : Graph) (p : Nat × Nat) : Graph :=
  if g.nodes.contains p.1 && g.nodes.contains p.2 then
    if hasEdge g p.1 p.2 then
      { g with edges := bumpTrips g.edges (normPair p.1 p.2) }
    else
      { g with edges := g.edges ++
          [{ k := normPair p.1 p.2, trip_id := tid, route_id := rid, route_type := rtype, trips := 1 }] }
  else g

/-- Body of the per-trip loop of `build_graph`: fetch the ordered stop
sequence, skip trips with at most one stop, skip trips whose trips-table or
routes-table row is missing, then fold the edge loop over consecutive pairs. -/
def processTrip (d : GTFSData) (g : Graph) (tid : Nat) : Graph :=
  let tripStops := sortedStops d tid
  if tripStops.length ≤ 1 then g
  else
    match d.trips.find? (fun t => t.trip_id = tid) with
    | none => g
    | some ti =>
      match d.routes.find? (fun r => r.route_id = ti.route_id) with
      | none => g
      | some ri =>
        (pairsOf (tripStops.map (·.stop_id))).foldl
          (addConnection tid ti.route_id ri.route_type) g

/-- `self.graph.remove_nodes_from(list(nx.isolates(self.graph)))`: drop every
isolated node, together with (necessarily non-existent) incident edges. -/
def removeIsolated (g : Graph) : Graph :=
  { nodes := g.nodes.filter (fun v => !isolatedIn g v)
    attrs := g.attrs.filter (fun p => !isolatedIn g p.1)
    edges := g.edges.filter (fun e => !isolatedIn g e.k.1 && !isolatedIn g e.k.2) }

/-- The node-building phase of `build_graph`. -/
def initGraph (d : GTFSData) : Graph :=
  d.stops.foldl addNode { nodes := [], attrs := [], edges := [] }

/-- `build_graph` over an explicit list of selected trip ids (the trip ids
obtained either from the whole trips table or from a random sample). -/
def buildGraphCore (d : GTFSData) (tripIds : List Nat) : Graph :=
  removeIsolated (tripIds.foldl (processTrip d) (initGraph d))

/-- `build_graph(sample_size=None)`: all trips are selected, in table order. -/
def buildGraph (d : GTFSData) : Graph :=
  buildGraphCore d (d.trips.map (·.trip_id))

/-! ## `_calculate_network_metrics_fast` and its graph primitives -/

/-- Breadth-first collection of the connected component of the start node.
Fuel-bounded; the supplied fuel always suffices because each step either
discards an already-visited frontier entry or visits a fresh node, and the
total number of frontier insertions is bounded by `1 + Σ deg`. -/
def bfsAux (g : Graph) : Nat → List Nat → List Nat → List Nat
  | 0, _, visited => visited
  | _ + 1, [], visited => visited
  | fuel + 1, f :: fs, visited =>
    if visited.contains f then bfsAux g fuel fs visited
    else bfsAux g fuel (fs ++ neighborsOf g f) (visited ++ [f])

/-- Connected component containing `start`, in BFS discovery order. -/
def bfsFrom (g : Graph) (start : Nat) : List Nat :=
  bfsAux g (2 + g.nodes.length + 2 * g.edges.length) [start] []

/-- `list(nx.connected_components(G))`: components in node insertion order. -/
def componentsOf (g : Graph) : List (List Nat) :=
  g.nodes.foldl (fun acc v => if acc.any (fun c => c.contains v) then acc else acc ++ [bfsFrom g v]) []

/-- `max(connected_components, key=len)`: the first component of maximal size. -/
def largestComponent (cs : List (List Nat)) : List Nat :=
  cs.foldl (fun best c => if best.length < c.length then c else best) []

/-- `G.subgraph(nodes)`: the induced subgraph on a node set. -/
def subgraphOf (g : Graph) (s : List Nat) : Graph :=
  { nodes := g.nodes.filter (fun v => s.contains v)
    attrs := g.attrs.filter (fun p => s.contains p.1)
    edges := g.edges.filter (fun e => s.contains e.k.1 && s.contains e.k.2) }

/-- Fuel-bounded BFS distance map (`nx.single_source_shortest_path_length`):
association list node ↦ hop distance, discovery order. -/
def bfsDistAux (g : Graph) : Nat → List (Nat × Nat) → List (Nat × Nat) → List (Nat × Nat)
  | 0, _, dist => dist
  | _ + 1, [], dist => dist
  | fuel + 1, (v, dv) :: fs, dist =>
    if (dist.lookup v).isSome then bfsDistAux g fuel fs dist
    else bfsDistAux g fuel (fs ++ (neighborsOf g v).map (fun u => (u, dv + 1))) (dist ++ [(v, dv)])

/-- Hop distances from a single source. -/
def distancesFrom (g : Graph) (s : Nat) : List (Nat × Nat) :=
  bfsDistAux g (2 + g.nodes.length + 2 * g.edges.length) [(s, 0)] []

/-- `nx.density(G)` (undirected): `0` when `m = 0` or `n ≤ 1`, else
`2 m / (n (n - 1))`. -/
def densityOf (g : Graph) : Rat :=
  let n := g.nodes.length
  let m := g.edges.length
  if m = 0 ∨ n ≤ 1 then 0 else (2 * m : Rat) / ((n : Rat) * ((n : Rat) - 1))

/-- `nx.average_shortest_path_length` on a connected graph: `0` for the
trivial graph, else the mean hop distance over ordered node pairs. -/
def avgShortestPathExact (sub : Graph) : Rat :=
  let n := sub.nodes.length
  if n ≤ 1 then 0
  else
    let total : Nat := (sub.nodes.map (fun u => ((distancesFrom sub u).map (·.2)).sum)).sum
    (total : Rat) / ((n : Rat) * ((n : Rat) - 1))

/-- The draw values one metrics call realises from the global RNG:
`sampleNodes population size` stands for `np.random.choice(..., replace=False)`
and `avgClustering` for `nx.approximation.average_clustering(..., trials=1000)`.
Because the source seeds neither, successive calls realise different samplers
(see `clusteringSampler` for the concrete trial-loop instantiation). -/
structure Sampler where
  sampleNodes : List Nat → Nat → List Nat
  avgClustering : Graph → Rat

/-- One trial of `nx.approximation.average_clustering`: the RNG supplies a
node index, an index picking one neighbour `u`, and an index picking a second,
distinct neighbour `v`; the trial hits when `u` and `v` are adjacent.  Nodes
with fewer than two neighbours are skipped. -/
def clusteringTrialHit (g : Graph) (d : Nat × Nat × Nat) : Bool :=
  let nodes := g.nodes
  let node := nodes.getD (d.1 % nodes.length) 0
  let nbrs := neighborsOf g node
  if nbrs.length < 2 then false
  else
    let u := nbrs.getD (d.2.1 % nbrs.length) 0
    let rest := nbrs.eraseIdx (d.2.1 % nbrs.length)
    let v := rest.getD (d.2.2 % rest.length) 0
    hasEdge g u v

/-- `nx.approximation.average_clustering(G, trials)` with the RNG draws made
explicit: the fraction of hit trials, one draw triple per trial
(`trials = draws.length`). -/
def averageClusteringApprox (g : Graph) (draws : List (Nat × Nat × Nat)) : Rat :=
  if draws.isEmpty then 0
  else ((draws.countP (clusteringTrialHit g) : Nat) : Rat) / ((draws.length : Nat) : Rat)

/-- The sampler realised by a metrics call whose clustering trials consume the
given RNG draw stream. -/
def clusteringSampler (draws : List (Nat × Nat × Nat)) : Sampler :=
  { sampleNodes := fun pop n => pop.take n
    avgClustering := fun sub => averageClusteringApprox sub draws }

/-- The metric keys of the dictionary built by
`_calculate_network_metrics_fast`. -/
inductive Metric
  | nodes | edges | density | largest_cc_size | largest_cc_ratio
  | avg_path_length | avg_clustering
deriving Repr, DecidableEq

/-- `_calculate_network_metrics_fast(G)`: the metric dictionary, as a total
function on the fixed key set. -/
def _calculate_network_metrics_fast (s : Sampler) (g : Graph) : Metric → Rat :=
  let comps := componentsOf g
  let cc := largestComponent comps
  let sub := subgraphOf g cc
  fun m =>
    match m with
    | .nodes => (g.nodes.length : Rat)
    | .edges => (g.edges.length : Rat)
    | .density => densityOf g
    | .largest_cc_size => if comps.isEmpty then 0 else (cc.length : Rat)
    | .largest_cc_ratio =>
      if comps.isEmpty then 0 else (cc.length : Rat) / (g.nodes.length : Rat)
    | .avg_path_length =>
      if comps.isEmpty then 0
      else if cc.length > 1000 then
        let sources := s.sampleNodes cc (min 100 cc.length)
        let pathLengths := sources.flatMap (fun src => (distancesFrom sub src).map (·.2))
        if pathLengths.isEmpty then 0 else (pathLengths.sum : Rat) / (pathLengths.length : Rat)
      else avgShortestPathExact sub
    | .avg_clustering => if comps.isEmpty then 0 else s.avgClustering sub

/-! ## Community impact and vulnerability assessment -/

/-- A partition is a Python dict node ↦ community id, modelled as an
insertion-ordered association list; `partition.get(v)` is `part.lookup v`. -/
abbrev Partition := List (Nat × Nat)

/-- Result dictionary of `_assess_community_impact_fast`. -/
structure CommunityImpact where
  connected_communities : Nat
  disconnected_communities : Nat
  community_impact_score : Rat
deriving Repr, DecidableEq

/-- `G.neighbors(v)`: raises `NetworkXError` when `v` is not a node. -/
def neighborsE (g : Graph) (v : Nat) : Except String (List Nat) :=
  if g.nodes.contains v then .ok (neighborsOf g v) else .error "NetworkXError"

/-- `G.nodes[v].get('name', str(v))`: raises `KeyError` when `v` is not a
node, otherwise the name attribute with the stringified id as default. -/
def nodeNameE (g : Graph) (v : Nat) : Except String String :=
  if g.nodes.contains v then
    .ok ((((g.attrs.lookup v).bind (fun a => a.name)).getD (toString v)))
  else .error "KeyError"

/-- `_assess_community_impact_fast(G, node_id, partition)`.  Communities are
tracked as `partition.get` values, hence `Option Nat`: a neighbour missing
from the partition contributes the `None` community, exactly as in Python. -/
def _assess_community_impact_fast (g : Graph) (node : Nat) (part : Partition) :
    Except String (Option CommunityImpact) :=
  if part.isEmpty then .ok none
  else do
    let nodeComm := part.lookup node
    let nbrs ← neighborsE g node
    let neighborComms := ((nbrs.map (fun nb => part.lookup nb)).filter
      (fun c => decide (c ≠ nodeComm))).dedup
    let communityNodes := (part.filter
      (fun p => decide (some p.2 = nodeComm) && decide (p.1 ≠ node))).map (·.1)
    let isConnected := fun (comm : Option Nat) =>
      let commNodes := (part.filter (fun p => decide (some p.2 = comm))).map (·.1)
      communityNodes.any (fun src => commNodes.any (fun tgt => hasEdge g src tgt))
    let disconnected := neighborComms.filter (fun c => !isConnected c)
    .ok (some
      { connected_communities := neighborComms.length
        disconnected_communities := disconnected.length
        community_impact_score :=
          (disconnected.length : Rat) / ((max 1 neighborComms.length : Nat) : Rat) })

/-- `nx.restricted_view(G, [v], [])`: the graph with one node and its
incident edges hidden (no error when `v` is absent). -/
def restrictedView (g : Graph) (v : Nat) : Graph :=
  { nodes := g.nodes.filter (fun u => u ≠ v)
    attrs := g.attrs.filter (fun p => p.1 ≠ v)
    edges := g.edges.filter (fun e => decide (e.k.1 ≠ v) && decide (e.k.2 ≠ v)) }

/-- Per-metric impact dictionary: `0` when the baseline value is zero, else
`100 * (1 - modified/baseline)`. -/
def impactOf (baseline modified : Metric → Rat) : Metric → Rat :=
  fun m => if baseline m = 0 then 0 else 100 * (1 - modified m / baseline m)

/-- One row of the vulnerability result list. -/
structure VulnRecord where
  node_id : Nat
  name : String
  centrality : Rat
  impact : Metric → Rat
  community : Option CommunityImpact

/-- `_vulnerability_worker(args)`: the module-level multiprocessing worker.
`args` is the tuple `(node_id, score, G, partition, baseline_metrics)`. -/
def _vulnerability_worker (s : Sampler)
    (args : Nat × Rat × Graph × Partition × (Metric → Rat)) :
    Except String VulnRecord := do
  let (node_id, score, G, partition, baseline) := args
  let G_view := restrictedView G node_id
  let modified := _calculate_network_metrics_fast s G_view
  let impact := impactOf baseline modified
  let community ←
    if partition.isEmpty then pure none
    else _assess_community_impact_fast G node_id partition
  let name ← nodeNameE G node_id
  .ok { node_id := node_id, name := name, centrality := score,
        impact := impact, community := community }

/-- `list(executor.map(f, args))`: results in submission order; the first
raised exception propagates to the caller and aborts the whole gather. -/
def exceptMapList (f : α → Except String β) : List α → Except String (List β)
  | [] => .ok []
  | a :: as => do
    let b ← f a
    let bs ← exceptMapList f as
    .ok (b :: bs)

/-- `CriticalNodeAnalyzer._assess_vulnerability_parallel`. -/
def _assess_vulnerability_parallel (s : Sampler) (g : Graph) (part : Partition)
    (criticalNodes : List (Nat × Rat)) (baseline : Metric → Rat)
    (_maxWorkers : Nat) : Except String (List VulnRecord) :=
  let workerArgs := criticalNodes.map (fun p => (p.1, p.2, g, part, baseline))
  exceptMapList (_vulnerability_worker s) workerArgs

/-- `CriticalNodeAnalyzer._assess_vulnerability_sequential` — the loop body
duplicates the worker code, as in the source. -/
def _assess_vulnerability_sequential (s : Sampler) (g : Graph) (part : Partition)
    (criticalNodes : List (Nat × Rat)) (baseline : Metric → Rat) :
    Except String (List VulnRecord) :=
  match criticalNodes with
  | [] => .ok []
  | (node_id, score) :: rest => do
    let G_view := restrictedView g node_id
    let modified := _calculate_network_metrics_fast s G_view
    let impact := impactOf baseline modified
    let community ←
      if part.isEmpty then pure none
      else _assess_community_impact_fast g node_id part
    let name ← nodeNameE g node_id
    let tail ← _assess_vulnerability_sequential s g part rest baseline
    .ok ({ node_id := node_id, name := name, centrality := score,
           impact := impact, community := community } :: tail)

/-- `CriticalNodeAnalyzer.assess_vulnerability(critical_nodes, parallel,
max_workers)`: baseline metrics computed once, then the parallel path when
`parallel` holds and more than one node is assessed, else the sequential
path. -/
def assess_vulnerability (s : Sampler) (g : Graph) (part : Partition)
    (criticalNodes : List (Nat × Rat)) (parallel : Bool) (maxWorkers : Nat) :
    Except String (List VulnRecord) :=
  let baseline := _calculate_network_metrics_fast s g
  if parallel && criticalNodes.length > 1 then
    _assess_vulnerability_parallel s g part criticalNodes baseline maxWorkers
  else
    _assess_vulnerability_sequential s g part criticalNodes baseline

/-! ## CriticalNodeAnalyzer.identify_critical_nodes -/

/-- `nx.degree`: a self-loop contributes 2, any other incident edge 1. -/
def degreeOf (g : Graph) (v : Nat) : Nat :=
  g.edges.foldl (fun acc e =>
    acc + (if e.k.1 = v then 1 else 0) + (if e.k.2 = v then 1 else 0)) 0

/-- `nx.degree_centrality(G)`: degree divided by `n - 1`, over the nodes in
insertion order; every node of a graph with at most one node scores 1. -/
def degree_centrality (g : Graph) : List (Nat × Rat) :=
  if g.nodes.length ≤ 1 then g.nodes.map (fun v => (v, 1))
  else g.nodes.map (fun v => (v, (degreeOf g v : Rat) / ((g.nodes.length : Rat) - 1)))

/-- The four centrality routines delegated to networkx/numpy library code
(shortest-path betweenness exact and source-sampled, closeness, eigenvector,
Katz), abstracted as score tables over the graph. -/
structure CentralityOracles where
  betweennessExact : Graph → List (Nat × Rat)
  betweennessApprox : Nat → Graph → List (Nat × Rat)
  closeness : Graph → List (Nat × Rat)
  eigenvector : Graph → List (Nat × Rat)
  katz : Graph → List (Nat × Rat)

/-- Each oracle returns exactly one score per graph node, keyed in node
insertion order — the documented shape of the networkx centrality dicts. -/
def CentralityTotal (o : CentralityOracles) : Prop :=
  (∀ g, (o.betweennessExact g).map Prod.fst = g.nodes) ∧
  (∀ k g, (o.betweennessApprox k g).map Prod.fst = g.nodes) ∧
  (∀ g, (o.closeness g).map Prod.fst = g.nodes) ∧
  (∀ g, (o.eigenvector g).map Prod.fst = g.nodes) ∧
  (∀ g, (o.katz g).map Prod.fst = g.nodes)

/-- Stable descending insertion by score: a new element goes after every
already-placed element of greater-or-equal score, which is exactly the
behaviour of Python's stable `sorted(..., key=score, reverse=True)`. -/
def insertDescStable (x : Nat × Rat) : List (Nat × Rat) → List (Nat × Rat)
  | [] => [x]
  | y :: ys => if y.2 < x.2 then x :: y :: ys else y :: insertDescStable x ys

/-- `sorted(centrality.items(), key=lambda x: x[1], reverse=True)`. -/
def sortDescStable (l : List (Nat × Rat)) : List (Nat × Rat) :=
  l.foldl (fun acc x => insertDescStable x acc) []

/-- `CriticalNodeAnalyzer.identify_critical_nodes(method, top_n, sample_size)`:
dispatch on the method name (an unknown name raises `ValueError`), then sort
descending by score and keep the first `top_n`.  For betweenness the
source-sampled approximation is taken when a (non-zero) sample size is given
or the graph exceeds 1000 nodes, with `k = sample_size or min(500, n)`. -/
def identify_critical_nodes (o : CentralityOracles) (g : Graph) (method : String)
    (topN : Nat) (sampleSize : Option Nat) : Except String (List (Nat × Rat)) := do
  let ss := sampleSize.getD 0
  let centrality ←
    if method = "betweenness" then
      if ss ≠ 0 ∨ g.nodes.length > 1000 then
        pure (o.betweennessApprox (if ss ≠ 0 then ss else min 500 g.nodes.length) g)
      else pure (o.betweennessExact g)
    else if method = "degree" then pure (degree_centrality g)
    else if method = "closeness" then pure (o.closeness g)
    else if method = "eigenvector" then pure (o.eigenvector g)
    else if method = "katz" then pure (o.katz g)
    else .error ("Unknown centrality method: " ++ method)
  .ok ((sortDescStable centrality).take topN)

/-! ## Claim-side (specification) definitions -/

/-- Spec predicate: entries with equal scores appear in ascending node-id
order. -/
def tiesOrderedById (l : List (Nat × Rat)) : Prop :=
  l.Pairwise (fun a b => a.2 = b.2 → a.1 ≤ b.1)

/-- Spec predicate for the community-impact sub-result: community `c` keeps a
direct edge to some member of the removed node's own community other than the
removed node itself (membership read off the partition entries). -/
def linksToOwn (g : Graph) (part : Partition) (node own c : Nat) : Prop :=
  ∃ s ∈ part, s.2 = own ∧ s.1 ≠ node ∧ ∃ t ∈ part, t.2 = c ∧ hasEdge g s.1 t.1 = true

instance (g : Graph) (part : Partition) (node own c : Nat) :
    Decidable (linksToOwn g part node own c) := by
  unfold linksToOwn; exact inferInstance

/-- Spec value: the distinct communities, other than the node's own, that
contain at least one neighbour of the node. -/
def claimConnected (g : Graph) (part : Partition) (node own : Nat) : Finset Nat :=
  (((neighborsOf g node).filterMap (fun nb => part.lookup nb)).toFinset).erase own

/-- Spec value: those connected communities left with no direct edge to the
node's own community once the node itself is discounted. -/
def claimDisconnected (g : Graph) (part : Partition) (node own : Nat) : Finset Nat :=
  (claimConnected g part node own).filter (fun c => ¬ linksToOwn g part node own c)

/-- Trip counter of the connection with normalised key `k` (0 when absent). -/
def tripsCount (es : List EdgeEntry) (k : Nat × Nat) : Nat :=
  ((lookupEdge es k).map (fun e => e.trips)).getD 0

/-- Number of adjacency entries carrying key `k`. -/
def countKey (es : List EdgeEntry) (k : Nat × Nat) : Nat :=
  es.countP (fun e => decide (e.k = k))

/-- Traversals of the unordered pair `k` along an ordered stop sequence whose
endpoints both lie in the node set `N`. -/
def traversalsIn (N : List Nat) (k : Nat × Nat) (ids : List Nat) : Nat :=
  (pairsOf ids).countP (fun p => N.contains p.1 && N.contains p.2 && decide (normPair p.1 p.2 = k))

/-- Contribution of one selected trip to the trip counter of key `k`: zero if
the trip is skipped (at most one stop, or a missing trips-table or
routes-table row), else its traversal count. -/
def contribOfTrip (d : GTFSData) (N : List Nat) (k : Nat × Nat) (tid : Nat) : Nat :=
  if (sortedStops d tid).length ≤ 1 then 0
  else
    match d.trips.find? (fun t => t.trip_id = tid) with
    | none => 0
    | some ti =>
      match d.routes.find? (fun r => r.route_id = ti.route_id) with
      | none => 0
      | some _ => traversalsIn N k (stopIdsOf d tid)

/-! ## Concrete instances used by witnesses and counterexamples -/

/-- A dataset whose single trip visits stop 1 twice in a row. -/
def exD4 : GTFSData :=
  { stops := [⟨1, "A", 0, 0⟩]
    routes := [⟨10, 3⟩]
    trips := [⟨100, 10⟩]
    stop_times := [⟨100, 1, 1⟩, ⟨100, 1, 2⟩] }

/-- Two trips both traversing stops 1 → 2, but trip 101 references route 99,
which is absent from the routes table. -/
def exD5 : GTFSData :=
  { stops := [⟨1, "A", 0, 0⟩, ⟨2, "B", 0, 0⟩]
    routes := [⟨10, 3⟩]
    trips := [⟨100, 10⟩, ⟨101, 99⟩]
    stop_times := [⟨100, 1, 1⟩, ⟨100, 2, 2⟩, ⟨101, 1, 1⟩, ⟨101, 2, 2⟩] }

/-- Two fully valid trips both traversing stops 1 → 2. -/
def exD5W : GTFSData :=
  { stops := [⟨1, "A", 0, 0⟩, ⟨2, "B", 0, 0⟩]
    routes := [⟨10, 3⟩, ⟨11, 3⟩]
    trips := [⟨100, 10⟩, ⟨101, 11⟩]
    stop_times := [⟨100, 1, 1⟩, ⟨100, 2, 2⟩, ⟨101, 1, 1⟩, ⟨101, 2, 2⟩] }

/-- A star on nodes 1, 2, 3 centred at 1. -/
def exG3 : Graph :=
  { nodes := [1, 2, 3], attrs := [], edges := [{ k := (1, 2) }, { k := (1, 3) }] }

/-- A single-node graph. -/
def exG7 : Graph := { nodes := [0], attrs := [], edges := [] }

/-- Two connected nodes inserted in the order 2, 1 — both of degree 1. -/
def exG8 : Graph := { nodes := [2, 1], attrs := [], edges := [{ k := (1, 2) }] }

/-- A triangle 1-2-3 with the pendant node 4 attached to 3: its per-node
clustering coefficients are not all equal, so the trial-sampled clustering
estimate depends on which nodes the RNG draws. -/
def exG9 : Graph :=
  { nodes := [1, 2, 3, 4], attrs := []
    edges := [{ k := (1, 2) }, { k := (1, 3) }, { k := (2, 3) }, { k := (3, 4) }] }

/-- An arbitrary realisation of the sampling draws. -/
def trivSampler : Sampler :=
  { sampleNodes := fun pop n => pop.take n, avgClustering := fun _ => 0 }

/-- Library-centrality stand-in assigning every node the score 0. -/
def dummyOracles : CentralityOracles :=
  { betweennessExact := fun g => g.nodes.map (fun v => (v, 0))
    betweennessApprox := fun _ g => g.nodes.map (fun v => (v, 0))
    closeness := fun g => g.nodes.map (fun v => (v, 0))
    eigenvector := fun g => g.nodes.map (fun v => (v, 0))
    katz := fun g => g.nodes.map (fun v => (v, 0)) }

/-- The method names accepted by `identify_critical_nodes`. -/
def validMethods : List String :=
  ["betweenness", "degree", "closeness", "eigenvector", "katz"]

/-! ## Helper lemmas -/

/-- `executor.map` gathers results in submission order and reraises the first
exception, so the parallel gather coincides with the sequential loop. -/
theorem assess_par_eq_seq (s : Sampler) (g : Graph) (part : Partition) (baseline : Metric → Rat)
    (mw : Nat) (cns : List (Nat × Rat)) :
    _assess_vulnerability_parallel s g part cns baseline mw =
      _assess_vulnerability_sequential s g part cns baseline := by
  induction cns with
  | nil => rfl
  | cons hd tl ih =>
    obtain ⟨nid, sc⟩ := hd
    simp only [_assess_vulnerability_parallel, List.map_cons, exceptMapList,
      _assess_vulnerability_sequential, _vulnerability_worker]
    rw [show exceptMapList (_vulnerability_worker s) (tl.map fun p => (p.1, p.2, g, part, baseline)) =
      _assess_vulnerability_sequential s g part tl baseline from ih]
    by_cases hp : part.isEmpty
    · simp only [hp, if_true]
      cases nodeNameE g nid <;> rfl
    · simp only [hp, if_false, Bool.false_eq_true, reduceIte]
      cases _assess_community_impact_fast g nid part with
      | error e => rfl
      | ok c => cases nodeNameE g nid <;> rfl

/-! ## Claim theorems -/

/-- Structural agreement of the two modes: when both consume the *same*
sampling draws, `parallel=true` returns exactly the record list of
`parallel=false` — same length, same order, equal fields.  This isolates the
ordering guarantee; the real modes differ only through the independent RNG
draws (see `assess_vulnerability_rng_divergence`). -/
theorem assess_vulnerability_parallel_eq_sequential (s : Sampler) (g : Graph) (part : Partition)
    (cns : List (Nat × Rat)) (mw : Nat) :
    assess_vulnerability s g part cns true mw = assess_vulnerability s g part cns false mw := by
  unfold assess_vulnerability
  by_cases h : cns.length > 1
  · simp [h, assess_par_eq_seq]
  · simp [h]

/-- C2: for a node present in the graph, the worker succeeds and each
`<metric>_impact` field equals `100 * (1 - modified/baseline)` on the
node-excluded view when the baseline value is non-zero, and `0` when the
baseline value is zero. -/
theorem vulnerability_impact_formula (s : Sampler) (g : Graph) (part : Partition)
    (node : Nat) (score : Rat) (m : Metric) (h : node ∈ g.nodes) :
    ∃ r, _vulnerability_worker s (node, score, g, part, _calculate_network_metrics_fast s g) =
        .ok r ∧
      (_calculate_network_metrics_fast s g m = 0 → r.impact m = 0) ∧
      (_calculate_network_metrics_fast s g m ≠ 0 →
        r.impact m = 100 * (1 - _calculate_network_metrics_fast s (restrictedView g node) m /
          _calculate_network_metrics_fast s g m)) := by
  have hc : g.nodes.contains node = true := List.elem_eq_true_of_mem h
  by_cases hp : part.isEmpty
  · refine ⟨{ node_id := node
              name := ((g.attrs.lookup node).bind (fun a => a.name)).getD (toString node)
              centrality := score
              impact := impactOf (_calculate_network_metrics_fast s g)
                (_calculate_network_metrics_fast s (restrictedView g node))
              community := none }, ?_, ?_, ?_⟩
    · unfold _vulnerability_worker
      simp only [hp, if_true, nodeNameE, hc, if_pos]
      rfl
    · intro h0; simp [impactOf, h0]
    · intro hne; simp [impactOf, hne]
  · obtain ⟨ci, hcomm⟩ : ∃ ci, _assess_community_impact_fast g node part = Except.ok ci := by
      unfold _assess_community_impact_fast
      simp only [hp, Bool.false_eq_true, reduceIte, neighborsE, hc, if_pos]
      exact ⟨_, rfl⟩
    refine ⟨{ node_id := node
              name := ((g.attrs.lookup node).bind (fun a => a.name)).getD (toString node)
              centrality := score
              impact := impactOf (_calculate_network_metrics_fast s g)
                (_calculate_network_metrics_fast s (restrictedView g node))
              community := ci }, ?_, ?_, ?_⟩
    · unfold _vulnerability_worker
      simp only [hp, Bool.false_eq_true, reduceIte, hcomm, nodeNameE, hc, if_pos]
      rfl
    · intro h0; simp [impactOf, h0]
    · intro hne; simp [impactOf, hne]

/-- C2 witness: the worker evaluated on node 1 of the concrete star graph. -/
theorem vulnerability_impact_formula_witness :
    ∃ r, _vulnerability_worker trivSampler
        (1, 1, exG3, [], _calculate_network_metrics_fast trivSampler exG3) = .ok r ∧
      (_calculate_network_metrics_fast trivSampler exG3 Metric.nodes = 0 →
        r.impact Metric.nodes = 0) ∧
      (_calculate_network_metrics_fast trivSampler exG3 Metric.nodes ≠ 0 →
        r.impact Metric.nodes = 100 * (1 -
          _calculate_network_metrics_fast trivSampler (restrictedView exG3 1) Metric.nodes /
          _calculate_network_metrics_fast trivSampler exG3 Metric.nodes)) :=
  vulnerability_impact_formula trivSampler exG3 [] 1 1 Metric.nodes (by decide)

/-- C10: a selected trip id with no trips-table row, or whose route id has no
routes-table row, leaves the graph unchanged and raises no error, and
`build_graph` is exactly the fold of the per-trip step over every selected
trip followed by isolate pruning. -/
theorem build_graph_skips_unmatched_trip (d : GTFSData) (g : Graph) (t : Nat)
    (h : d.trips.find? (fun r => r.trip_id = t) = none ∨
      ∃ ti, d.trips.find? (fun r => r.trip_id = t) = some ti ∧
        d.routes.find? (fun r => r.route_id = ti.route_id) = none) :
    processTrip d g t = g ∧
      ∀ tids, buildGraphCore d tids = removeIsolated (tids.foldl (processTrip d) (initGraph d)) := by
  refine ⟨?_, fun _ => rfl⟩
  unfold processTrip
  by_cases hlen : (sortedStops d t).length ≤ 1
  · simp [hlen]
  · rcases h with h | ⟨ti, hti, hro⟩
    · simp [hlen, h]
    · simp [hlen, hti, hro]

/-- C10 witness: trip 101 of the concrete dataset references the missing
route 99 and is skipped. -/
theorem build_graph_skips_unmatched_trip_witness :
    processTrip exD5 (initGraph exD5) 101 = initGraph exD5 ∧
      buildGraphCore exD5 [100] =
        removeIsolated ([100].foldl (processTrip exD5) (initGraph exD5)) :=
  ⟨(build_graph_skips_unmatched_trip exD5 (initGraph exD5) 101
      (Or.inr ⟨⟨101, 99⟩, by decide, by decide⟩)).1,
   (build_graph_skips_unmatched_trip exD5 (initGraph exD5) 101
      (Or.inr ⟨⟨101, 99⟩, by decide, by decide⟩)).2 [100]⟩

/-- C4 counterexample: the dataset whose trip visits stop 1 at two
consecutive sequence positions produces a graph with a self-loop on node 1 —
`build_graph` never compares `source` with `target`. -/
theorem build_graph_self_loop_counterexample :
    ¬ (∀ e ∈ (buildGraph exD4).edges, e.k.1 ≠ e.k.2) := by decide

/-- C5 counterexample: both selected trips of `exD5` traverse stops 1, 2
consecutively and both stops are nodes, yet trip 101 is skipped because its
route 99 has no routes-table row, so the single edge (1,2) ends with
`trips = 1`, not 2. -/
theorem weight_accumulation_counterexample :
    pairsOf (stopIdsOf exD5 100) = [(1, 2)] ∧
    pairsOf (stopIdsOf exD5 101) = [(1, 2)] ∧
    (lookupEdge (buildGraph exD5).edges (1, 2)).map (fun e => e.trips) = some 1 ∧
    ¬ (lookupEdge (buildGraph exD5).edges (1, 2)).map (fun e => e.trips) = some 2 := by
  decide

/-- C7 counterexample: assessing the absent node 5 followed by the present
node 0 aborts the whole batch in both parallel and sequential mode — the
`KeyError` propagates and no record at all is returned for node 0. -/
theorem assess_vulnerability_abort_counterexample :
    assess_vulnerability trivSampler exG7 [] [(5, 1), (0, 1)] true 4 = .error "KeyError" ∧
    assess_vulnerability trivSampler exG7 [] [(5, 1), (0, 1)] false 4 = .error "KeyError" :=
  ⟨rfl, rfl⟩

/-- Concrete evaluation: degree centrality on `exG8` ties at score 1 and the
stable sort keeps the dict insertion order. -/
theorem identify_degree_exG8_eq :
    identify_critical_nodes dummyOracles exG8 "degree" 20 none = .ok [(2, 1), (1, 1)] := by
  have h1 : degree_centrality exG8 = [(2, 1), (1, 1)] := by
    unfold degree_centrality exG8 degreeOf
    norm_num
  unfold identify_critical_nodes
  simp [h1, sortDescStable, insertDescStable]

/-- C8 counterexample: on the graph with nodes inserted in the order 2, 1 and
a single edge, degree centrality ties at 1 and the stable sort keeps the dict
insertion order [(2, 1), (1, 1)] — equal-score entries are not ordered by
node id. -/
theorem identify_tiebreak_counterexample :
    identify_critical_nodes dummyOracles exG8 "degree" 20 none = .ok [(2, 1), (1, 1)] ∧
    ¬ tiesOrderedById [(2, 1), (1, 1)] := by
  refine ⟨identify_degree_exG8_eq, fun hcon => ?_⟩
  rcases List.pairwise_cons.mp hcon with ⟨h1, _⟩
  have h2 : (2 : Nat) ≤ 1 := h1 (1, 1) (by simp) rfl
  omega

theorem mem_insertDescStable {z x : Nat × Rat} {l : List (Nat × Rat)} :
    z ∈ insertDescStable x l ↔ z = x ∨ z ∈ l := by
  induction l with
  | nil => simp [insertDescStable]
  | cons y ys ih =>
    by_cases hxy : y.2 < x.2
    · simp [insertDescStable, hxy]
    · simp [insertDescStable, hxy, ih]
      tauto

theorem pairwise_insertDescStable (x : Nat × Rat) (l : List (Nat × Rat))
    (h : l.Pairwise (fun a b => b.2 ≤ a.2)) :
    (insertDescStable x l).Pairwise (fun a b => b.2 ≤ a.2) := by
  induction l with
  | nil => simp [insertDescStable]
  | cons y ys ih =>
    rcases List.pairwise_cons.mp h with ⟨hy, hys⟩
    by_cases hxy : y.2 < x.2
    · rw [show insertDescStable x (y :: ys) = x :: y :: ys by
        simp [insertDescStable, hxy]]
      refine List.pairwise_cons.mpr ⟨?_, h⟩
      intro z hz
      rcases List.mem_cons.mp hz with rfl | hz
      · exact le_of_lt hxy
      · exact le_trans (hy z hz) (le_of_lt hxy)
    · rw [show insertDescStable x (y :: ys) = y :: insertDescStable x ys by
        simp [insertDescStable, hxy]]
      refine List.pairwise_cons.mpr ⟨?_, ih hys⟩
      intro z hz
      rcases mem_insertDescStable.mp hz with rfl | hz
      · exact not_lt.mp hxy
      · exact hy z hz

theorem perm_insertDescStable (x : Nat × Rat) (l : List (Nat × Rat)) :
    List.Perm (insertDescStable x l) (x :: l) := by
  induction l with
  | nil => simp [insertDescStable]
  | cons y ys ih =>
    by_cases hxy : y.2 < x.2
    · simp [insertDescStable, hxy]
    · rw [show insertDescStable x (y :: ys) = y :: insertDescStable x ys by
        simp [insertDescStable, hxy]]
      exact (ih.cons y).trans (List.Perm.swap x y ys)

theorem sortDescStable_pairwise_aux (l acc : List (Nat × Rat))
    (hacc : acc.Pairwise (fun a b => b.2 ≤ a.2)) :
    (l.foldl (fun acc x => insertDescStable x acc) acc).Pairwise (fun a b => b.2 ≤ a.2) := by
  induction l generalizing acc with
  | nil => exact hacc
  | cons x xs ih => exact ih _ (pairwise_insertDescStable x acc hacc)

theorem sortDescStable_pairwise (l : List (Nat × Rat)) :
    (sortDescStable l).Pairwise (fun a b => b.2 ≤ a.2) :=
  sortDescStable_pairwise_aux l [] List.Pairwise.nil

theorem sortDescStable_perm_aux (l acc : List (Nat × Rat)) :
    List.Perm (l.foldl (fun acc x => insertDescStable x acc) acc) (acc ++ l) := by
  induction l generalizing acc with
  | nil => simp
  | cons x xs ih =>
    refine (ih (insertDescStable x acc)).trans ?_
    refine (((perm_insertDescStable x acc).append_right xs).trans ?_)
    exact List.perm_middle.symm

theorem sortDescStable_perm (l : List (Nat × Rat)) :
    List.Perm (sortDescStable l) l :=
  sortDescStable_perm_aux l []

/-- Keys of the degree-centrality dict are the graph nodes in insertion
order. -/
theorem degree_centrality_keys (g : Graph) :
    (degree_centrality g).map Prod.fst = g.nodes := by
  unfold degree_centrality
  split <;> simp [Function.comp_def]

theorem identify_shape (o : CentralityOracles) (g : Graph) (method : String)
    (topN : Nat) (ss : Option Nat) :
    identify_critical_nodes o g method topN ss =
      .error ("Unknown centrality method: " ++ method) ∨
    ∃ c, identify_critical_nodes o g method topN ss = .ok ((sortDescStable c).take topN) := by
  by_cases h1 : method = "betweenness"
  · by_cases h1b : (ss.getD 0 ≠ 0 ∨ g.nodes.length > 1000)
    · exact Or.inr ⟨o.betweennessApprox
        (if ss.getD 0 = 0 then 500 ⊓ g.nodes.length else ss.getD 0) g,
        by simp [identify_critical_nodes, h1, h1b]⟩
    · exact Or.inr ⟨o.betweennessExact g, by simp [identify_critical_nodes, h1, h1b]⟩
  · by_cases h2 : method = "degree"
    · exact Or.inr ⟨degree_centrality g, by simp [identify_critical_nodes, h1, h2]⟩
    · by_cases h3 : method = "closeness"
      · exact Or.inr ⟨o.closeness g, by simp [identify_critical_nodes, h1, h2, h3]⟩
      · by_cases h4 : method = "eigenvector"
        · exact Or.inr ⟨o.eigenvector g, by simp [identify_critical_nodes, h1, h2, h3, h4]⟩
        · by_cases h5 : method = "katz"
          · exact Or.inr ⟨o.katz g, by simp [identify_critical_nodes, h1, h2, h3, h4, h5]⟩
          · exact Or.inl (by simp [identify_critical_nodes, h1, h2, h3, h4, h5]; rfl)

/-- C8 (amended): the list returned by `identify_critical_nodes` is sorted in
descending order of centrality score; equal-score entries keep the insertion
order of the centrality dict (stable sort), not node-id order. -/
theorem identify_sorted_descending (o : CentralityOracles) (g : Graph) (method : String)
    (topN : Nat) (ss : Option Nat) (l : List (Nat × Rat))
    (h : identify_critical_nodes o g method topN ss = .ok l) :
    l.Pairwise (fun a b => b.2 ≤ a.2) := by
  rcases identify_shape o g method topN ss with he | ⟨c, hc⟩
  · rw [he] at h
    cases h
  · rw [hc] at h
    injection h with h2
    rw [← h2]
    exact List.Pairwise.sublist (List.take_sublist _ _) (sortDescStable_pairwise c)

/-- C8 witness: the sorted-descending conclusion evaluated on the concrete
two-node graph. -/
theorem identify_sorted_descending_witness :
    ([(2, 1), (1, 1)] : List (Nat × Rat)).Pairwise (fun a b => b.2 ≤ a.2) :=
  identify_sorted_descending dummyOracles exG8 "degree" 20 none [(2, 1), (1, 1)]
    identify_degree_exG8_eq

/-- The all-zero oracle stand-in is total. -/
theorem dummyOracles_total : CentralityTotal dummyOracles := by
  refine ⟨fun g => ?_, fun k g => ?_, fun g => ?_, fun g => ?_, fun g => ?_⟩ <;>
    simp [dummyOracles, Function.comp_def]

/-- C6: every method name outside the five supported ones is rejected with
the reported `ValueError`, and for a supported method a `top_n` larger than
the node count silently returns all nodes of the graph without failing. -/
theorem identify_method_contract (o : CentralityOracles) (g : Graph) (method : String)
    (topN : Nat) (ss : Option Nat) :
    (method ∉ validMethods →
      identify_critical_nodes o g method topN ss =
        .error ("Unknown centrality method: " ++ method)) ∧
    (CentralityTotal o → method ∈ validMethods → g.nodes.length < topN →
      ∃ l, identify_critical_nodes o g method topN ss = .ok l ∧
        List.Perm (l.map Prod.fst) g.nodes) := by
  constructor
  · intro hm
    have h1 : method ≠ "betweenness" := fun he => hm (by rw [he]; simp [validMethods])
    have h2 : method ≠ "degree" := fun he => hm (by rw [he]; simp [validMethods])
    have h3 : method ≠ "closeness" := fun he => hm (by rw [he]; simp [validMethods])
    have h4 : method ≠ "eigenvector" := fun he => hm (by rw [he]; simp [validMethods])
    have h5 : method ≠ "katz" := fun he => hm (by rw [he]; simp [validMethods])
    simp [identify_critical_nodes, h1, h2, h3, h4, h5]
    rfl
  · rintro ⟨hbe, hba, hcl, hev, hk⟩ hm hn
    have take_all : ∀ c : List (Nat × Rat), c.map Prod.fst = g.nodes →
        List.Perm (((sortDescStable c).take topN).map Prod.fst) g.nodes := by
      intro c hmap
      have hlen : c.length = g.nodes.length := by rw [← hmap, List.length_map]
      have hperm := sortDescStable_perm c
      have hlen2 : (sortDescStable c).length ≤ topN := by
        rw [hperm.length_eq, hlen]; omega
      rw [List.take_of_length_le hlen2]
      refine (hperm.map Prod.fst).trans ?_
      rw [hmap]
    simp only [validMethods, List.mem_cons, List.not_mem_nil, or_false] at hm
    rcases hm with rfl | rfl | rfl | rfl | rfl
    · by_cases hb : ((ss.getD 0 ≠ 0) ∨ g.nodes.length > 1000)
      · exact ⟨(sortDescStable (o.betweennessApprox
            (if ss.getD 0 = 0 then 500 ⊓ g.nodes.length else ss.getD 0) g)).take topN,
          by simp [identify_critical_nodes, hb],
          take_all _ (hba (if ss.getD 0 = 0 then 500 ⊓ g.nodes.length else ss.getD 0) g)⟩
      · exact ⟨_, by simp [identify_critical_nodes, hb], take_all _ (hbe g)⟩
    · exact ⟨_, by simp [identify_critical_nodes], take_all _ (degree_centrality_keys g)⟩
    · exact ⟨_, by simp [identify_critical_nodes], take_all _ (hcl g)⟩
    · exact ⟨_, by simp [identify_critical_nodes], take_all _ (hev g)⟩
    · exact ⟨_, by simp [identify_critical_nodes], take_all _ (hk g)⟩

/-- C6 witness: the unknown method "foo" is rejected and, with `top_n = 5`
on the two-node graph, the degree method returns all nodes. -/
theorem identify_method_contract_witness :
    identify_critical_nodes dummyOracles exG8 "foo" 5 none =
      .error ("Unknown centrality method: " ++ "foo") ∧
    ∃ l, identify_critical_nodes dummyOracles exG8 "degree" 5 none = .ok l ∧
      List.Perm (l.map Prod.fst) exG8.nodes :=
  ⟨(identify_method_contract dummyOracles exG8 "foo" 5 none).1 (by decide),
   (identify_method_contract dummyOracles exG8 "degree" 5 none).2
     dummyOracles_total (by decide) (by decide)⟩

/-- An absent node makes the worker raise: `KeyError` from the name lookup
when no partition is supplied, `NetworkXError` from `G.neighbors` otherwise. -/
theorem worker_error_of_absent (s : Sampler) (g : Graph) (part : Partition)
    (baseline : Metric → Rat) (nid : Nat) (sc : Rat) (h : nid ∉ g.nodes) :
    ∃ msg, _vulnerability_worker s (nid, sc, g, part, baseline) = .error msg := by
  have hc : g.nodes.contains nid = false := by
    rcases hb : g.nodes.contains nid with _ | _
    · rfl
    · exact absurd (by simpa using hb) h
  by_cases hpart : part.isEmpty
  · refine ⟨"KeyError", ?_⟩
    unfold _vulnerability_worker
    simp only [hpart, if_true, nodeNameE, hc, Bool.false_eq_true, reduceIte]
    rfl
  · refine ⟨"NetworkXError", ?_⟩
    unfold _vulnerability_worker _assess_community_impact_fast
    simp only [hpart, Bool.false_eq_true, reduceIte, neighborsE, hc]
    rfl

/-- A present node always yields a record. -/
theorem worker_ok_of_mem (s : Sampler) (g : Graph) (part : Partition)
    (baseline : Metric → Rat) (nid : Nat) (sc : Rat) (h : nid ∈ g.nodes) :
    ∃ r, _vulnerability_worker s (nid, sc, g, part, baseline) = .ok r := by
  have hc : g.nodes.contains nid = true := List.elem_eq_true_of_mem h
  by_cases hpart : part.isEmpty
  · refine ⟨{ node_id := nid
              name := ((g.attrs.lookup nid).bind (fun a => a.name)).getD (toString nid)
              centrality := sc
              impact := impactOf baseline (_calculate_network_metrics_fast s (restrictedView g nid))
              community := none }, ?_⟩
    unfold _vulnerability_worker
    simp only [hpart, if_true, nodeNameE, hc, if_pos]
    rfl
  · obtain ⟨ci, hcomm⟩ : ∃ ci, _assess_community_impact_fast g nid part = Except.ok ci := by
      unfold _assess_community_impact_fast
      simp only [hpart, Bool.false_eq_true, reduceIte, neighborsE, hc, if_pos]
      exact ⟨_, rfl⟩
    refine ⟨{ node_id := nid
              name := ((g.attrs.lookup nid).bind (fun a => a.name)).getD (toString nid)
              centrality := sc
              impact := impactOf baseline (_calculate_network_metrics_fast s (restrictedView g nid))
              community := ci }, ?_⟩
    unfold _vulnerability_worker
    simp only [hpart, Bool.false_eq_true, reduceIte, hcomm, nodeNameE, hc, if_pos]
    rfl

/-- If some element of the batch makes the task function raise, the ordered
gather of `executor.map` raises. -/
theorem exceptMapList_error {α β : Type} (f : α → Except String β) (l : List α)
    (h : ∃ a ∈ l, ∀ b, f a ≠ .ok b) :
    ∃ msg, exceptMapList f l = .error msg := by
  induction l with
  | nil =>
    obtain ⟨a, ha, _⟩ := h
    exact absurd ha (List.not_mem_nil a)
  | cons hd tl ih =>
    obtain ⟨a, ha, hf⟩ := h
    cases hfd : f hd with
    | error e => exact ⟨e, by simp [exceptMapList, hfd]; rfl⟩
    | ok b =>
      rcases List.mem_cons.mp ha with rfl | ha
      · exact absurd hfd (hf b)
      · obtain ⟨msg, hmsg⟩ := ih ⟨a, ha, hf⟩
        exact ⟨msg, by simp [exceptMapList, hfd, hmsg]; rfl⟩

/-- C7 (amended): a node id absent from the graph makes its task raise, and
in both parallel and sequential mode the exception propagates and aborts the
entire assessment — no records at all are returned, instead of the failing
record merely being omitted. -/
theorem assess_vulnerability_absent_aborts (s : Sampler) (g : Graph) (part : Partition)
    (cns : List (Nat × Rat)) (par : Bool) (mw : Nat)
    (h : ∃ p ∈ cns, p.1 ∉ g.nodes) :
    ∃ msg, assess_vulnerability s g part cns par mw = .error msg := by
  obtain ⟨p, hp, hmem⟩ := h
  have hpar : ∃ msg, _assess_vulnerability_parallel s g part cns
      (_calculate_network_metrics_fast s g) mw = .error msg := by
    apply exceptMapList_error
    refine ⟨(p.1, p.2, g, part, _calculate_network_metrics_fast s g), ?_, ?_⟩
    · exact List.mem_map.mpr ⟨p, hp, rfl⟩
    · intro b hb
      obtain ⟨msg, hmsg⟩ := worker_error_of_absent s g part
        (_calculate_network_metrics_fast s g) p.1 p.2 hmem
      rw [hmsg] at hb
      cases hb
  obtain ⟨msg, hmsg⟩ := hpar
  have hseq : _assess_vulnerability_sequential s g part cns
      (_calculate_network_metrics_fast s g) = .error msg := by
    rw [← assess_par_eq_seq s g part (_calculate_network_metrics_fast s g) mw cns, hmsg]
  refine ⟨msg, ?_⟩
  unfold assess_vulnerability
  by_cases hc : (par && cns.length > 1) = true
  · rw [if_pos hc]
    exact hmsg
  · rw [if_neg hc]
    exact hseq

/-- C7 witness: the abort conclusion evaluated on the concrete single-node
graph with the absent node 5 in the batch. -/
theorem assess_vulnerability_absent_aborts_witness :
    ∃ msg, assess_vulnerability trivSampler exG7 [] [(5, 1), (0, 1)] true 4 = .error msg :=
  assess_vulnerability_absent_aborts trivSampler exG7 [] [(5, 1), (0, 1)] true 4
    ⟨(5, 1), by decide, by decide⟩

theorem bumpTrips_keys (es : List EdgeEntry) (k : Nat × Nat) :
    (bumpTrips es k).map (fun e => e.k) = es.map (fun e => e.k) := by
  induction es with
  | nil => rfl
  | cons e es ih =>
    by_cases he : e.k = k
    · simp [bumpTrips, he]
    · simp [bumpTrips, he, ih]

theorem normPair_ne {a b : Nat} (h : a ≠ b) :
    (normPair a b).1 ≠ (normPair a b).2 := by
  unfold normPair
  split
  · exact h
  · exact fun he => h he.symm

theorem hasEdge_iff_key_mem (g : Graph) (a b : Nat) :
    hasEdge g a b = true ↔ normPair a b ∈ g.edges.map (fun e => e.k) := by
  unfold hasEdge
  rw [List.any_eq_true]
  constructor
  · rintro ⟨e, he, hk⟩
    exact List.mem_map.mpr ⟨e, he, by simpa using hk⟩
  · rintro hm
    obtain ⟨e, he, hk⟩ := List.mem_map.mp hm
    exact ⟨e, he, by simp [hk]⟩

theorem addConnection_nodes (t r : Nat) (rt : Int) (g : Graph) (p : Nat × Nat) :
    (addConnection t r rt g p).nodes = g.nodes := by
  unfold addConnection
  split_ifs <;> rfl

theorem foldl_addConnection_nodes (t r : Nat) (rt : Int) (ps : List (Nat × Nat)) :
    ∀ g : Graph, ((ps.foldl (addConnection t r rt) g)).nodes = g.nodes := by
  induction ps with
  | nil => exact fun g => rfl
  | cons p ps ih => exact fun g => (ih _).trans (addConnection_nodes t r rt g p)

theorem processTrip_nodes (d : GTFSData) (g : Graph) (t : Nat) :
    (processTrip d g t).nodes = g.nodes := by
  unfold processTrip
  by_cases hl : (sortedStops d t).length ≤ 1
  · simp [hl]
  · simp only [hl, if_false]
    cases hf : List.find? (fun tr => decide (tr.trip_id = t)) d.trips with
    | none => rfl
    | some ti =>
      dsimp only
      cases hr : List.find? (fun r => decide (r.route_id = ti.route_id)) d.routes with
      | none => rfl
      | some ri => exact foldl_addConnection_nodes _ _ _ _ g

theorem addConnection_keys_nodup (t r : Nat) (rt : Int) (g : Graph) (p : Nat × Nat)
    (h : (g.edges.map (fun e => e.k)).Nodup) :
    ((addConnection t r rt g p).edges.map (fun e => e.k)).Nodup := by
  unfold addConnection
  split_ifs with h1 h2
  · rw [bumpTrips_keys]
    exact h
  · have hkey : normPair p.1 p.2 ∉ g.edges.map (fun e => e.k) := by
      intro hmem
      exact h2 ((hasEdge_iff_key_mem g p.1 p.2).mpr hmem)
    have hkey2 : ∀ x ∈ g.edges, ¬ x.k = normPair p.1 p.2 :=
      fun x hx hk => hkey (List.mem_map.mpr ⟨x, hx, hk⟩)
    simpa [List.nodup_append] using ⟨h, hkey2⟩
  · exact h

theorem addConnection_no_selfloop (t r : Nat) (rt : Int) (g : Graph) (p : Nat × Nat)
    (hp : p.1 ≠ p.2) (h : ∀ e ∈ g.edges, e.k.1 ≠ e.k.2) :
    ∀ e ∈ (addConnection t r rt g p).edges, e.k.1 ≠ e.k.2 := by
  unfold addConnection
  split_ifs with h1 h2
  · intro e he
    have hk : e.k ∈ (bumpTrips g.edges (normPair p.1 p.2)).map (fun e => e.k) :=
      List.mem_map.mpr ⟨e, he, rfl⟩
    rw [bumpTrips_keys] at hk
    obtain ⟨e0, he0, hke⟩ := List.mem_map.mp hk
    rw [← hke]
    exact h e0 he0
  · intro e he
    rcases List.mem_append.mp he with he | he
    · exact h e he
    · rcases List.mem_singleton.mp he with rfl
      exact normPair_ne hp
  · exact h

theorem foldl_addConnection_keys_nodup (t r : Nat) (rt : Int) (ps : List (Nat × Nat)) :
    ∀ g : Graph, (g.edges.map (fun e => e.k)).Nodup →
      ((ps.foldl (addConnection t r rt) g).edges.map (fun e => e.k)).Nodup := by
  induction ps with
  | nil => exact fun g h => h
  | cons p ps ih => exact fun g h => ih _ (addConnection_keys_nodup t r rt g p h)

theorem foldl_addConnection_no_selfloop (t r : Nat) (rt : Int) (ps : List (Nat × Nat)) :
    ∀ g : Graph, (∀ p ∈ ps, p.1 ≠ p.2) → (∀ e ∈ g.edges, e.k.1 ≠ e.k.2) →
      ∀ e ∈ (ps.foldl (addConnection t r rt) g).edges, e.k.1 ≠ e.k.2 := by
  induction ps with
  | nil => exact fun g _ h => h
  | cons p ps ih =>
    intro g hps h
    exact ih _ (fun q hq => hps q (List.mem_cons_of_mem p hq))
      (addConnection_no_selfloop t r rt g p (hps p (List.mem_cons_self p ps)) h)

theorem processTrip_keys_nodup (d : GTFSData) (g : Graph) (t : Nat)
    (h : (g.edges.map (fun e => e.k)).Nodup) :
    ((processTrip d g t).edges.map (fun e => e.k)).Nodup := by
  unfold processTrip
  by_cases hl : (sortedStops d t).length ≤ 1
  · simpa [hl] using h
  · simp only [hl, if_false]
    cases hf : List.find? (fun tr => decide (tr.trip_id = t)) d.trips with
    | none => exact h
    | some ti =>
      dsimp only
      cases hr : List.find? (fun r => decide (r.route_id = ti.route_id)) d.routes with
      | none => exact h
      | some ri => exact foldl_addConnection_keys_nodup _ _ _ _ g h

theorem processTrip_no_selfloop (d : GTFSData) (g : Graph) (t : Nat)
    (hps : ∀ p ∈ pairsOf (stopIdsOf d t), p.1 ≠ p.2)
    (h : ∀ e ∈ g.edges, e.k.1 ≠ e.k.2) :
    ∀ e ∈ (processTrip d g t).edges, e.k.1 ≠ e.k.2 := by
  unfold processTrip
  by_cases hl : (sortedStops d t).length ≤ 1
  · simpa [hl] using h
  · simp only [hl, if_false]
    cases hf : List.find? (fun tr => decide (tr.trip_id = t)) d.trips with
    | none => exact h
    | some ti =>
      dsimp only
      cases hr : List.find? (fun r => decide (r.route_id = ti.route_id)) d.routes with
      | none => exact h
      | some ri => exact foldl_addConnection_no_selfloop _ _ _ _ g hps h

theorem foldl_processTrip_keys_nodup (d : GTFSData) (tids : List Nat) :
    ∀ g : Graph, (g.edges.map (fun e => e.k)).Nodup →
      ((tids.foldl (processTrip d) g).edges.map (fun e => e.k)).Nodup := by
  induction tids with
  | nil => exact fun g h => h
  | cons t ts ih => exact fun g h => ih _ (processTrip_keys_nodup d g t h)

theorem foldl_processTrip_no_selfloop (d : GTFSData) (tids : List Nat) :
    ∀ g : Graph, (∀ t ∈ tids, ∀ p ∈ pairsOf (stopIdsOf d t), p.1 ≠ p.2) →
      (∀ e ∈ g.edges, e.k.1 ≠ e.k.2) →
      ∀ e ∈ (tids.foldl (processTrip d) g).edges, e.k.1 ≠ e.k.2 := by
  induction tids with
  | nil => exact fun g _ h => h
  | cons t ts ih =>
    intro g hts h
    exact ih _ (fun u hu => hts u (List.mem_cons_of_mem t hu))
      (processTrip_no_selfloop d g t (hts t (List.mem_cons_self t ts)) h)

theorem addNode_edges (g : Graph) (s : StopRow) : (addNode g s).edges = g.edges := by
  unfold addNode
  split <;> rfl

theorem initGraph_edges (d : GTFSData) : (initGraph d).edges = [] := by
  unfold initGraph
  generalize hg : ({ nodes := [], attrs := [], edges := [] } : Graph) = g0
  have : ∀ (l : List StopRow) (g : Graph), (l.foldl addNode g).edges = g.edges := by
    intro l
    induction l with
    | nil => exact fun g => rfl
    | cons st l ih => exact fun g => (ih _).trans (addNode_edges g st)
  rw [this]
  rw [← hg]

/-- C4 (amended): the built graph has at most one adjacency entry per
unordered stop pair (repeated traversals increment the existing entry rather
than creating a parallel edge), and — provided no selected trip's ordered
stop sequence repeats a stop at two consecutive positions — it has no
self-loop. -/
theorem build_graph_simple (d : GTFSData) (tids : List Nat) :
    ((buildGraphCore d tids).edges.map (fun e => e.k)).Nodup ∧
    ((∀ t ∈ tids, ∀ p ∈ pairsOf (stopIdsOf d t), p.1 ≠ p.2) →
      ∀ e ∈ (buildGraphCore d tids).edges, e.k.1 ≠ e.k.2) := by
  have hbase : ((tids.foldl (processTrip d) (initGraph d)).edges.map (fun e => e.k)).Nodup :=
    foldl_processTrip_keys_nodup d tids (initGraph d) (by rw [initGraph_edges]; exact List.nodup_nil)
  constructor
  · unfold buildGraphCore removeIsolated
    exact List.Nodup.sublist (List.Sublist.map _ (List.filter_sublist _)) hbase
  · intro hps e he
    have he2 : e ∈ (tids.foldl (processTrip d) (initGraph d)).edges := by
      have := he
      unfold buildGraphCore removeIsolated at this
      exact List.mem_of_mem_filter this
    exact foldl_processTrip_no_selfloop d tids (initGraph d) hps
      (by rw [initGraph_edges]; intro e' he'; exact absurd he' (List.not_mem_nil e')) e he2

/-- C4 witness: the amended statement evaluated on the two-trip dataset with
duplicate-free stop sequences. -/
theorem build_graph_simple_witness :
    ((buildGraphCore exD5W [100, 101]).edges.map (fun e => e.k)).Nodup ∧
    (∀ e ∈ (buildGraphCore exD5W [100, 101]).edges, e.k.1 ≠ e.k.2) :=
  ⟨(build_graph_simple exD5W [100, 101]).1,
   (build_graph_simple exD5W [100, 101]).2 (by decide)⟩

theorem lookupEdge_bump_self (es : List EdgeEntry) (k : Nat × Nat) :
    lookupEdge (bumpTrips es k) k =
      (lookupEdge es k).map (fun e => { e with trips := e.trips + 1 }) := by
  induction es with
  | nil => rfl
  | cons e es ih =>
    by_cases he : e.k = k
    · simp [bumpTrips, lookupEdge, List.find?_cons, he]
    · simpa [bumpTrips, lookupEdge, List.find?_cons, he] using ih

theorem lookupEdge_bump_ne (es : List EdgeEntry) (k kp : Nat × Nat) (h : kp ≠ k) :
    lookupEdge (bumpTrips es kp) k = lookupEdge es k := by
  induction es with
  | nil => rfl
  | cons e es ih =>
    unfold bumpTrips
    by_cases he : e.k = kp
    · rw [if_pos he]
      unfold lookupEdge
      rw [List.find?_cons, List.find?_cons]
      have hd1 : decide (({ e with trips := e.trips + 1 } : EdgeEntry).k = k) = false := by
        simp [he, h]
      rw [hd1]
    · rw [if_neg he]
      unfold lookupEdge
      rw [List.find?_cons, List.find?_cons]
      cases hd : decide (e.k = k) with
      | true => rfl
      | false => exact ih

theorem hasEdge_iff_lookup_isSome (g : Graph) (a b : Nat) :
    hasEdge g a b = true ↔ (lookupEdge g.edges (normPair a b)).isSome = true := by
  unfold hasEdge lookupEdge
  rw [List.any_eq_true, List.find?_isSome]

theorem tripsCount_addConnection (t r : Nat) (rt : Int) (g : Graph) (p : Nat × Nat)
    (k : Nat × Nat) :
    tripsCount (addConnection t r rt g p).edges k =
      tripsCount g.edges k +
        (if g.nodes.contains p.1 && g.nodes.contains p.2 && decide (normPair p.1 p.2 = k)
         then 1 else 0) := by
  unfold addConnection
  by_cases hmem : (g.nodes.contains p.1 && g.nodes.contains p.2) = true
  · have hm2 : p.1 ∈ g.nodes ∧ p.2 ∈ g.nodes := by simpa using hmem
    rw [if_pos hmem]
    by_cases hk : normPair p.1 p.2 = k
    · subst hk
      by_cases he : hasEdge g p.1 p.2 = true
      · rw [if_pos he]
        unfold tripsCount
        dsimp only
        rw [lookupEdge_bump_self]
        cases hle : lookupEdge g.edges (normPair p.1 p.2) with
        | none =>
          have hs := (hasEdge_iff_lookup_isSome g p.1 p.2).mp he
          rw [hle] at hs
          cases hs
        | some e => simp [hmem, hm2]
      · rw [if_neg he]
        unfold tripsCount lookupEdge
        dsimp only
        rw [List.find?_append]
        have hnone : List.find? (fun e => decide (e.k = normPair p.1 p.2)) g.edges = none := by
          cases hle : List.find? (fun e => decide (e.k = normPair p.1 p.2)) g.edges with
          | none => rfl
          | some e =>
            refine absurd ((hasEdge_iff_lookup_isSome g p.1 p.2).mpr ?_) he
            unfold lookupEdge
            rw [hle]
            rfl
        rw [hnone]
        simp [List.find?_cons, hmem, hm2]
    · by_cases he : hasEdge g p.1 p.2 = true
      · rw [if_pos he]
        unfold tripsCount
        dsimp only
        rw [lookupEdge_bump_ne _ _ _ hk]
        simp [hk]
      · rw [if_neg he]
        unfold tripsCount lookupEdge
        dsimp only
        rw [List.find?_append]
        have hnew : List.find? (fun e => decide (e.k = k))
            ([{ k := normPair p.1 p.2, trip_id := t, route_id := r, route_type := rt,
                trips := 1 }] : List EdgeEntry) = none := by
          simp [List.find?_cons, hk]
        rw [hnew]
        simp [hk]
  · rw [if_neg hmem]
    have hco : (g.nodes.contains p.1 && g.nodes.contains p.2 &&
        decide (normPair p.1 p.2 = k)) = false := by
      cases h1 : (g.nodes.contains p.1 && g.nodes.contains p.2) with
      | false => simp [h1]
      | true => exact absurd h1 hmem
    rw [hco]
    simp

theorem tripsCount_foldl_pairs (t r : Nat) (rt : Int) (k : Nat × Nat) (N : List Nat)
    (ps : List (Nat × Nat)) :
    ∀ g : Graph, g.nodes = N →
      tripsCount ((ps.foldl (addConnection t r rt) g).edges) k =
        tripsCount g.edges k +
          ps.countP (fun p => N.contains p.1 && N.contains p.2 &&
            decide (normPair p.1 p.2 = k)) := by
  induction ps with
  | nil => simp
  | cons p ps ih =>
    intro g hg
    rw [List.foldl_cons, ih _ (by rw [addConnection_nodes]; exact hg),
      tripsCount_addConnection, hg, List.countP_cons]
    generalize (if N.contains p.1 && N.contains p.2 && decide (normPair p.1 p.2 = k)
      then 1 else 0) = x
    omega

theorem tripsCount_processTrip (d : GTFSData) (k : Nat × Nat) (N : List Nat) (g : Graph)
    (t : Nat) (hg : g.nodes = N) :
    tripsCount (processTrip d g t).edges k = tripsCount g.edges k + contribOfTrip d N k t := by
  unfold processTrip contribOfTrip
  by_cases hl : (sortedStops d t).length ≤ 1
  · simp [hl]
  · simp only [hl, if_false]
    cases hf : List.find? (fun tr => decide (tr.trip_id = t)) d.trips with
    | none => simp
    | some ti =>
      dsimp only
      cases hr : List.find? (fun r => decide (r.route_id = ti.route_id)) d.routes with
      | none => simp
      | some ri =>
        rw [tripsCount_foldl_pairs t ti.route_id ri.route_type k N _ g hg]
        rfl

theorem tripsCount_foldl_trips (d : GTFSData) (k : Nat × Nat) (N : List Nat)
    (tids : List Nat) :
    ∀ g : Graph, g.nodes = N →
      tripsCount ((tids.foldl (processTrip d) g).edges) k =
        tripsCount g.edges k + ((tids.map (contribOfTrip d N k)).sum) := by
  induction tids with
  | nil => simp
  | cons t ts ih =>
    intro g hg
    rw [List.foldl_cons, ih _ (by rw [processTrip_nodes]; exact hg),
      tripsCount_processTrip d k N g t hg, List.map_cons, List.sum_cons]
    omega

theorem isolatedIn_endpoint_false (g : Graph) (e : EdgeEntry) (he : e ∈ g.edges) :
    isolatedIn g e.k.1 = false ∧ isolatedIn g e.k.2 = false := by
  constructor
  · rw [← Bool.not_eq_true, isolatedIn, List.all_eq_true]
    intro hall
    have h := hall e he
    simp at h
  · rw [← Bool.not_eq_true, isolatedIn, List.all_eq_true]
    intro hall
    have h := hall e he
    simp at h

/-- Isolate pruning never drops an edge: every edge is incident to its own
endpoints, so neither endpoint is isolated. -/
theorem removeIsolated_edges (g : Graph) : (removeIsolated g).edges = g.edges := by
  unfold removeIsolated
  refine List.filter_eq_self.mpr ?_
  intro e he
  obtain ⟨h1, h2⟩ := isolatedIn_endpoint_false g e he
  simp [h1, h2]

theorem countKey_le_one (es : List EdgeEntry) (k : Nat × Nat)
    (h : (es.map (fun e => e.k)).Nodup) : countKey es k ≤ 1 := by
  induction es with
  | nil => exact Nat.le_of_lt Nat.one_pos
  | cons e es ih =>
    rw [List.map_cons, List.nodup_cons] at h
    unfold countKey at ih ⊢
    rw [List.countP_cons]
    by_cases hek : e.k = k
    · have hzero : es.countP (fun e => decide (e.k = k)) = 0 := by
        rw [List.countP_eq_zero]
        intro e2 he2 hd
        have : e2.k = k := by simpa using hd
        exact h.1 (by rw [← hek] at this; exact List.mem_map.mpr ⟨e2, he2, this⟩)
      simp [hzero, hek]
    · simp [hek]
      exact ih h.2

theorem countKey_pos_of_lookup (es : List EdgeEntry) (k : Nat × Nat) (e : EdgeEntry)
    (h : lookupEdge es k = some e) : 1 ≤ countKey es k := by
  have hm := List.mem_of_find?_eq_some h
  have hf := List.find?_some h
  unfold countKey
  exact List.countP_pos_iff.mpr ⟨e, hm, hf⟩

theorem sum_map_two_support (f : Nat → Nat) (l : List Nat) (a b : Nat) (hab : a ≠ b)
    (h0 : ∀ t ∈ l, t ≠ a → t ≠ b → f t = 0) :
    (l.map f).sum = f a * l.count a + f b * l.count b := by
  induction l with
  | nil => simp
  | cons x xs ih =>
    have ih2 := ih (fun t ht => h0 t (List.mem_cons_of_mem x ht))
    rw [List.map_cons, List.sum_cons, ih2]
    by_cases hxa : x = a
    · subst hxa
      rw [List.count_cons_self, List.count_cons_of_ne (Ne.symm hab)]
      ring
    · by_cases hxb : x = b
      · subst hxb
        rw [List.count_cons_self, List.count_cons_of_ne hab]
        ring
      · rw [h0 x (List.mem_cons_self x xs) hxa hxb,
          List.count_cons_of_ne (Ne.symm hxa), List.count_cons_of_ne (Ne.symm hxb)]
        ring

/-- C5 (amended): if exactly two selected trips each traverse the pair {A,B}
exactly once (both stops in the node set), both pass the trips-table and
routes-table lookups, the selected id list holds each of the two exactly
once, and no other selected trip contributes a traversal of {A,B}, then the
built graph has exactly one edge between A and B and its trips attribute
equals 2. -/
theorem weight_accumulation_two_trips (d : GTFSData) (tids : List Nat) (A B t1 t2 : Nat)
    (h1 : tids.count t1 = 1) (h2 : tids.count t2 = 1) (h12 : t1 ≠ t2)
    (hc1 : contribOfTrip d (initGraph d).nodes (normPair A B) t1 = 1)
    (hc2 : contribOfTrip d (initGraph d).nodes (normPair A B) t2 = 1)
    (h0 : ∀ t ∈ tids, t ≠ t1 → t ≠ t2 →
      contribOfTrip d (initGraph d).nodes (normPair A B) t = 0) :
    tripsCount (buildGraphCore d tids).edges (normPair A B) = 2 ∧
    countKey (buildGraphCore d tids).edges (normPair A B) = 1 := by
  have hsum : ((tids.map (contribOfTrip d (initGraph d).nodes (normPair A B))).sum) = 2 := by
    rw [sum_map_two_support _ tids t1 t2 h12 h0, hc1, hc2, h1, h2]
  have htc : tripsCount (buildGraphCore d tids).edges (normPair A B) = 2 := by
    unfold buildGraphCore
    rw [removeIsolated_edges, tripsCount_foldl_trips d (normPair A B) (initGraph d).nodes
      tids (initGraph d) rfl, hsum]
    rw [show tripsCount (initGraph d).edges (normPair A B) = 0 from by
      rw [tripsCount, initGraph_edges]; rfl]
  refine ⟨htc, ?_⟩
  have hnodup : ((buildGraphCore d tids).edges.map (fun e => e.k)).Nodup := by
    unfold buildGraphCore
    rw [removeIsolated_edges]
    exact foldl_processTrip_keys_nodup d tids (initGraph d)
      (by rw [initGraph_edges]; exact List.nodup_nil)
  have hle : countKey (buildGraphCore d tids).edges (normPair A B) ≤ 1 :=
    countKey_le_one _ _ hnodup
  have hge : 1 ≤ countKey (buildGraphCore d tids).edges (normPair A B) := by
    obtain ⟨e, he⟩ : ∃ e, lookupEdge (buildGraphCore d tids).edges (normPair A B) = some e := by
      cases hle2 : lookupEdge (buildGraphCore d tids).edges (normPair A B) with
      | none =>
        rw [tripsCount, hle2] at htc
        cases htc
      | some e => exact ⟨e, rfl⟩
    exact countKey_pos_of_lookup _ _ e he
  omega

/-- C5 witness: the two-valid-trip dataset yields a single edge with
`trips = 2`. -/
theorem weight_accumulation_two_trips_witness :
    tripsCount (buildGraphCore exD5W [100, 101]).edges (normPair 1 2) = 2 ∧
    countKey (buildGraphCore exD5W [100, 101]).edges (normPair 1 2) = 1 :=
  weight_accumulation_two_trips exD5W [100, 101] 1 2 100 101 (by decide) (by decide)
    (by decide) (by decide) (by decide) (by decide)

theorem map_eq_filterMap_map_some {α β : Type} (f : α → Option β) (l : List α)
    (h : ∀ x ∈ l, (f x).isSome = true) : l.map f = (l.filterMap f).map some := by
  induction l with
  | nil => rfl
  | cons x xs ih =>
    obtain ⟨y, hy⟩ := Option.isSome_iff_exists.mp (h x (List.mem_cons_self x xs))
    rw [List.map_cons, List.filterMap_cons_some (by exact hy), List.map_cons, hy,
      ih (fun z hz => h z (List.mem_cons_of_mem _ hz))]

theorem dedup_map_inj {α β : Type} [DecidableEq α] [DecidableEq β] {f : α → β}
    (hf : Function.Injective f) (l : List α) : (l.map f).dedup = l.dedup.map f := by
  induction l with
  | nil => rfl
  | cons x xs ih =>
    by_cases hx : x ∈ xs
    · rw [List.map_cons, List.dedup_cons_of_mem (List.mem_map_of_mem f hx),
        List.dedup_cons_of_mem hx, ih]
    · have hnx : f x ∉ xs.map f := by
        intro hcmem
        obtain ⟨y, hy, he⟩ := List.mem_map.mp hcmem
        exact hx (by rwa [← hf he])
      rw [List.map_cons, List.dedup_cons_of_not_mem hnx, List.dedup_cons_of_not_mem hx,
        List.map_cons, ih]

/-- C3: the community-impact record reports exactly the claim's counts: the
number of distinct foreign communities holding a neighbour of the node, the
number of those with no remaining direct edge to the node's own community
(discounting the node itself), and their ratio with the max(1, ·) guard. -/
theorem community_impact_counts (g : Graph) (part : Partition) (node own : Nat)
    (hmem : node ∈ g.nodes)
    (hown : part.lookup node = some own)
    (htot : ∀ nb ∈ neighborsOf g node, (part.lookup nb).isSome = true) :
    _assess_community_impact_fast g node part = .ok (some
      { connected_communities := (claimConnected g part node own).card
        disconnected_communities := (claimDisconnected g part node own).card
        community_impact_score :=
          ((claimDisconnected g part node own).card : Rat) /
            (((max 1 (claimConnected g part node own).card) : Nat) : Rat) }) := by
  have hc : g.nodes.contains node = true := List.elem_eq_true_of_mem hmem
  have hp : part.isEmpty = false := by
    cases part with
    | nil => cases hown
    | cons a l => rfl
  have hmap : (neighborsOf g node).map (fun nb => List.lookup nb part) =
      ((neighborsOf g node).filterMap (fun nb => List.lookup nb part)).map some :=
    map_eq_filterMap_map_some _ _ htot
  have hfilter : ((neighborsOf g node).map (fun nb => List.lookup nb part)).filter
        (fun c => decide (c ≠ some own)) =
      (((neighborsOf g node).filterMap (fun nb => List.lookup nb part)).filter
        (fun c => decide (c ≠ own))).map some := by
    rw [hmap, List.filter_map]
    refine congrArg (List.map some) (List.filter_congr ?_)
    intro c _
    simp
  have hNC : (((neighborsOf g node).map (fun nb => List.lookup nb part)).filter
        (fun c => decide (c ≠ some own))).dedup =
      ((((neighborsOf g node).filterMap (fun nb => List.lookup nb part)).filter
        (fun c => decide (c ≠ own))).dedup).map some := by
    rw [hfilter, dedup_map_inj (fun a b h => Option.some.inj h)]
  have hmemD : ∀ c, (c ∈ (((neighborsOf g node).filterMap
        (fun nb => List.lookup nb part)).filter (fun c => decide (c ≠ own))).dedup) ↔
      c ∈ claimConnected g part node own := by
    intro c
    rw [List.mem_dedup, List.mem_filter]
    unfold claimConnected
    rw [Finset.mem_erase, List.mem_toFinset]
    simp [and_comm]
  have hconn : ((((neighborsOf g node).filterMap (fun nb => List.lookup nb part)).filter
        (fun c => decide (c ≠ own))).dedup).length = (claimConnected g part node own).card := by
    rw [← List.toFinset_card_of_nodup (List.nodup_dedup _)]
    congr 1
    ext c
    rw [List.mem_toFinset, hmemD c]
  have hpred : ∀ c : Nat,
      ((List.filter (fun p => decide (some p.2 = some own) && decide (p.1 ≠ node)) part).map
          (fun x => x.1)).any (fun src =>
        ((List.filter (fun p => decide (some p.2 = some c)) part).map (fun x => x.1)).any
          (fun tgt => hasEdge g src tgt)) = true ↔
        linksToOwn g part node own c := by
    intro c
    unfold linksToOwn
    simp only [List.any_eq_true, List.mem_map, List.mem_filter, Bool.and_eq_true,
      decide_eq_true_eq, Option.some.injEq]
    constructor
    · rintro ⟨src, ⟨p, ⟨hp1, ⟨hp2, hp3⟩⟩, hpeq⟩, tgt, ⟨q, ⟨hq1, hq2⟩, hqeq⟩, he⟩
      subst hpeq
      subst hqeq
      exact ⟨p, hp1, hp2, hp3, q, hq1, hq2, he⟩
    · rintro ⟨s, hs, hs2, hs1, t, ht, ht2, he⟩
      exact ⟨s.1, ⟨s, ⟨hs, hs2, hs1⟩, rfl⟩, t.1, ⟨t, ⟨ht, ht2⟩, rfl⟩, he⟩
  have hdisc : ((((neighborsOf g node).filterMap (fun nb => List.lookup nb part)).filter
        (fun c => decide (c ≠ own))).dedup.filter (fun c =>
        !((List.filter (fun p => decide (some p.2 = some own) && decide (p.1 ≠ node)) part).map
            (fun x => x.1)).any (fun src =>
          ((List.filter (fun p => decide (some p.2 = some c)) part).map (fun x => x.1)).any
            (fun tgt => hasEdge g src tgt)))).length =
      (claimDisconnected g part node own).card := by
    rw [← List.toFinset_card_of_nodup ((List.nodup_dedup _).filter _)]
    congr 1
    ext c
    rw [List.mem_toFinset, List.mem_filter]
    unfold claimDisconnected
    rw [Finset.mem_filter]
    constructor
    · rintro ⟨hcD, hq⟩
      refine ⟨(hmemD c).mp hcD, fun hlink => ?_⟩
      rw [Bool.not_eq_true'] at hq
      rw [← hpred c] at hlink
      rw [hq] at hlink
      cases hlink
    · rintro ⟨hcC, hnl⟩
      refine ⟨(hmemD c).mpr hcC, ?_⟩
      rw [Bool.not_eq_true']
      cases hb : (((List.filter (fun p => decide (some p.2 = some own) &&
          decide (p.1 ≠ node)) part).map (fun x => x.1)).any (fun src =>
        ((List.filter (fun p => decide (some p.2 = some c)) part).map (fun x => x.1)).any
          (fun tgt => hasEdge g src tgt))) with
      | false => rfl
      | true => exact absurd ((hpred c).mp hb) hnl
  unfold _assess_community_impact_fast
  simp only [hp, Bool.false_eq_true, reduceIte, neighborsE, hc, if_true, hown]
  refine congrArg (fun r => Except.ok (some r)) ?_
  rw [CommunityImpact.mk.injEq]
  refine ⟨?_, ?_, ?_⟩
  · rw [hNC, List.length_map, hconn]
  · rw [hNC, List.filter_map, List.length_map]
    exact hdisc
  · rw [hNC, List.filter_map, List.length_map, List.length_map, hconn]
    rw [show ((((neighborsOf g node).filterMap (fun nb => List.lookup nb part)).filter
        (fun c => decide (c ≠ own))).dedup.filter ((fun c =>
        !((List.filter (fun p => decide (some p.2 = some own) && decide (p.1 ≠ node)) part).map
            (fun x => x.1)).any (fun src =>
          ((List.filter (fun p => decide (some p.2 = c)) part).map (fun x => x.1)).any
            (fun tgt => hasEdge g src tgt))) ∘ some)).length =
      (claimDisconnected g part node own).card from hdisc]

/-- C3 witness: the community impact of node 1 of the concrete star graph
under the three-community partition. -/
theorem community_impact_counts_witness :
    _assess_community_impact_fast exG3 1 [(1, 0), (2, 1), (3, 2)] = .ok (some
      { connected_communities := (claimConnected exG3 [(1, 0), (2, 1), (3, 2)] 1 0).card
        disconnected_communities := (claimDisconnected exG3 [(1, 0), (2, 1), (3, 2)] 1 0).card
        community_impact_score :=
          ((claimDisconnected exG3 [(1, 0), (2, 1), (3, 2)] 1 0).card : Rat) /
            (((max 1 (claimConnected exG3 [(1, 0), (2, 1), (3, 2)] 1 0).card) : Nat) : Rat) }) :=
  community_impact_counts exG3 [(1, 0), (2, 1), (3, 2)] 1 0 (by decide) (by decide) (by decide)

/-- On a graph with at least one component, the `avg_clustering` field is the
trial-sampled estimate on the largest-component subgraph. -/
theorem metrics_avg_clustering (s : Sampler) (g : Graph)
    (h : (componentsOf g).isEmpty = false) :
    _calculate_network_metrics_fast s g Metric.avg_clustering =
      s.avgClustering (subgraphOf g (largestComponent (componentsOf g))) := by
  unfold _calculate_network_metrics_fast
  simp [h]

/-- Evaluation of the trial-sampled clustering estimate at a given hit
count. -/
theorem avgClusteringApprox_eval (g : Graph) (draws : List (Nat × Nat × Nat)) (t : Nat)
    (hne : draws.isEmpty = false) (hc : draws.countP (clusteringTrialHit g) = t) :
    averageClusteringApprox g draws = (t : Rat) / ((draws.length : Nat) : Rat) := by
  unfold averageClusteringApprox
  simp [hne, hc]

/-- The baseline `avg_clustering` of `exG9` under the RNG draw that samples
node 1 of the triangle. -/
theorem exG9_clustering_draw0 :
    _calculate_network_metrics_fast (clusteringSampler [(0, 0, 1)]) exG9
      Metric.avg_clustering = 1 := by
  rw [metrics_avg_clustering _ _ (by decide),
    show subgraphOf exG9 (largestComponent (componentsOf exG9)) = exG9 from by decide]
  show averageClusteringApprox exG9 [(0, 0, 1)] = 1
  rw [avgClusteringApprox_eval exG9 _ 1 (by decide) (by decide)]
  norm_num

/-- The baseline `avg_clustering` of `exG9` under the RNG draw that samples
the pendant node 4 (degree 1, trial skipped). -/
theorem exG9_clustering_draw3 :
    _calculate_network_metrics_fast (clusteringSampler [(3, 0, 1)]) exG9
      Metric.avg_clustering = 0 := by
  rw [metrics_avg_clustering _ _ (by decide),
    show subgraphOf exG9 (largestComponent (componentsOf exG9)) = exG9 from by decide]
  show averageClusteringApprox exG9 [(3, 0, 1)] = 0
  rw [avgClusteringApprox_eval exG9 _ 0 (by decide) (by decide)]
  norm_num

/-- C9: the baseline metric set is NOT a pure function of the graph — the
`avg_clustering` field depends on the RNG draws consumed by the unseeded
`nx.approximation.average_clustering(..., trials=1000)`, which advance the
global RNG state between two successive calls.  On `exG9`, the draw realised
by one call yields 1 while the draw realised by the next yields 0. -/
theorem baseline_metrics_rng_dependent :
    _calculate_network_metrics_fast (clusteringSampler [(0, 0, 1)]) exG9
        Metric.avg_clustering = 1 ∧
    _calculate_network_metrics_fast (clusteringSampler [(3, 0, 1)]) exG9
        Metric.avg_clustering = 0 ∧
    (1 : Rat) ≠ 0 :=
  ⟨exG9_clustering_draw0, exG9_clustering_draw3, by norm_num⟩

/-- `avg_clustering` of the node-3-removed view of `exG9` under the first
draw: the largest remaining component is the edge 1-2, whose sampled node has
a single neighbour, so every trial is skipped. -/
theorem exG9_view3_clustering_draw0 :
    _calculate_network_metrics_fast (clusteringSampler [(0, 0, 1)])
      (restrictedView exG9 3) Metric.avg_clustering = 0 := by
  rw [metrics_avg_clustering _ _ (by decide),
    show subgraphOf (restrictedView exG9 3)
        (largestComponent (componentsOf (restrictedView exG9 3))) =
      { nodes := [1, 2], attrs := [], edges := [{ k := (1, 2) }] } from by decide]
  show averageClusteringApprox
    ({ nodes := [1, 2], attrs := [], edges := [{ k := (1, 2) }] } : Graph) [(0, 0, 1)] = 0
  rw [avgClusteringApprox_eval _ _ 0 (by decide) (by decide)]
  norm_num

/-- `avg_clustering` of the node-4-removed view of `exG9` under the first
draw: the remaining graph is the triangle, and the sampled trial hits. -/
theorem exG9_view4_clustering_draw0 :
    _calculate_network_metrics_fast (clusteringSampler [(0, 0, 1)])
      (restrictedView exG9 4) Metric.avg_clustering = 1 := by
  rw [metrics_avg_clustering _ _ (by decide),
    show subgraphOf (restrictedView exG9 4)
        (largestComponent (componentsOf (restrictedView exG9 4))) =
      restrictedView exG9 4 from by decide]
  show averageClusteringApprox (restrictedView exG9 4) [(0, 0, 1)] = 1
  rw [avgClusteringApprox_eval _ _ 1 (by decide) (by decide)]
  norm_num

/-- C1: the two execution modes do NOT return numerically equal records once
the independent RNG draws of the unseeded clustering approximation are made
explicit.  On `exG9` with critical nodes 4 and 3, the parallel run realising
draw (0,0,1) reports `avg_clustering` impacts [0, 100] while the sequential
run realising draw (3,0,1) reports [0, 0]: same order, same length, but the
RNG-dependent field differs far beyond floating-point tolerance. -/
theorem assess_vulnerability_rng_divergence :
    ((assess_vulnerability (clusteringSampler [(0, 0, 1)]) exG9 [] [(4, 1), (3, 1)]
        true 4).toOption.map (fun l => l.map (fun r => r.impact Metric.avg_clustering))) =
      some [0, 100] ∧
    ((assess_vulnerability (clusteringSampler [(3, 0, 1)]) exG9 [] [(4, 1), (3, 1)]
        false 4).toOption.map (fun l => l.map (fun r => r.impact Metric.avg_clustering))) =
      some [0, 0] ∧
    (100 : Rat) ≠ 0 := by
  refine ⟨?_, ?_, by norm_num⟩
  · have ha : assess_vulnerability (clusteringSampler [(0, 0, 1)]) exG9 [] [(4, 1), (3, 1)]
        true 4 = .ok
        [ { node_id := 4
            name := ((exG9.attrs.lookup 4).bind (fun a => a.name)).getD (toString 4)
            centrality := 1
            impact := impactOf
              (_calculate_network_metrics_fast (clusteringSampler [(0, 0, 1)]) exG9)
              (_calculate_network_metrics_fast (clusteringSampler [(0, 0, 1)])
                (restrictedView exG9 4))
            community := none },
          { node_id := 3
            name := ((exG9.attrs.lookup 3).bind (fun a => a.name)).getD (toString 3)
            centrality := 1
            impact := impactOf
              (_calculate_network_metrics_fast (clusteringSampler [(0, 0, 1)]) exG9)
              (_calculate_network_metrics_fast (clusteringSampler [(0, 0, 1)])
                (restrictedView exG9 3))
            community := none } ] := rfl
    rw [ha]
    simp only [Except.toOption, Option.map, List.map_cons, List.map_nil, impactOf,
      exG9_clustering_draw0, exG9_view4_clustering_draw0, exG9_view3_clustering_draw0]
    norm_num
  · have ha : assess_vulnerability (clusteringSampler [(3, 0, 1)]) exG9 [] [(4, 1), (3, 1)]
        false 4 = .ok
        [ { node_id := 4
            name := ((exG9.attrs.lookup 4).bind (fun a => a.name)).getD (toString 4)
            centrality := 1
            impact := impactOf
              (_calculate_network_metrics_fast (clusteringSampler [(3, 0, 1)]) exG9)
              (_calculate_network_metrics_fast (clusteringSampler [(3, 0, 1)])
                (restrictedView exG9 4))
            community := none },
          { node_id := 3
            name := ((exG9.attrs.lookup 3).bind (fun a => a.name)).getD (toString 3)
            centrality := 1
            impact := impactOf
              (_calculate_network_metrics_fast (clusteringSampler [(3, 0, 1)]) exG9)
              (_calculate_network_metrics_fast (clusteringSampler [(3, 0, 1)])
                (restrictedView exG9 3))
            community := none } ] := rfl
    rw [ha]
    simp only [Except.toOption, Option.map, List.map_cons, List.map_nil, impactOf,
      exG9_clustering_draw3]
    norm_num
